import Mathlib

/-!
Verification of the hvcsadmin parse/resolve/mutate core (scripts/hvcsadmin.py).

The systool output consumed by the script is a line-oriented text dump.  Each
scanning function in the script classifies a line with one anchored regular
expression per recognized shape (`Driver = "..."`, `Driver path = "..."`,
`Device = "..."`, `Device path = "..."`, `index = "..."`, `current_vty = "..."`,
`vterm_state = "..."`) and ignores every other line.  We embed the recognized
line shapes as the inductive `SLine`; an unrecognized line is `SLine.other`.
The value captured by the quoted group is carried as a plain string, except for
`current_vty`, whose line regex in `get_device_path_by_partition` additionally
constrains the quoted value to the location-code grammar; we carry the raw
value and apply the location-code match (`parseClc`) where the script does.

File reads from the pseudo-filesystem are modelled by environment records that
supply the (already `.strip()`-ed) attribute values; writes and existence
checks are recorded as explicit effects.  Python's `re.fullmatch(r"0", s)`
holds exactly when `s = "0"`.
-/

namespace Hvcsadmin

def APP_NAME : String := "hvcsadmin"

def DRIVER : String := "hvcs"

def GLOBAL_NODE_NAME : String := "hvcs"

/-- One recognized systool output line (see header comment). -/
inductive SLine
  | driver (name : String)
  | driverPath (p : String)
  | device (name : String)
  | devicePath (p : String)
  | indexAttr (v : String)
  | currentVty (v : String)
  | vtermState (v : String)
  | other
deriving DecidableEq

def SLine.isDriver : SLine → Bool
  | .driver _ => true
  | _ => false

/-- `\w` of the script's regexes (ASCII word character). -/
def isWordC (c : Char) : Bool := c.isAlphanum || c == '_'

/-- Anchored match of the location-code regex
`\w+\.\w+\.\w+-V(\d+)-C(\d+)` against a whole character list, returning
(machine group, partition group, slot group).  The pattern's repetition
operators are deterministic here: `\w` matches neither `.` nor `-`, and `\d`
does not match `-`, so the greedy runs of the regex engine coincide with
`takeWhile` runs and no backtracking can produce a different split. -/
def parseClcList (cs : List Char) : Option (String × String × String) :=
  let w1 := cs.takeWhile isWordC
  let r1 := cs.dropWhile isWordC
  if w1.isEmpty then none else
  match r1 with
  | '.' :: r2 =>
    let w2 := r2.takeWhile isWordC
    let r3 := r2.dropWhile isWordC
    if w2.isEmpty then none else
    match r3 with
    | '.' :: r4 =>
      let w3 := r4.takeWhile isWordC
      let r5 := r4.dropWhile isWordC
      if w3.isEmpty then none else
      match r5 with
      | '-' :: 'V' :: r6 =>
        let d1 := r6.takeWhile Char.isDigit
        let r7 := r6.dropWhile Char.isDigit
        if d1.isEmpty then none else
        match r7 with
        | '-' :: 'C' :: r8 =>
          let d2 := r8.takeWhile Char.isDigit
          let r9 := r8.dropWhile Char.isDigit
          if d2.isEmpty then none else
          if r9.isEmpty then
            some (String.mk (w1 ++ '.' :: w2 ++ '.' :: w3), String.mk d1, String.mk d2)
          else none
        | _ => none
      | _ => none
    | _ => none
  | _ => none

def parseClc (s : String) : Option (String × String × String) :=
  parseClcList s.data

/-- Scan loop of `get_device_path_by_index` (hvcsadmin.py lines 333-370).
State variables follow the script: `local_driver`, `device_path`, `index`.
A `Driver = "..."` line resets `device_path` and `index`; a
`Device path = "..."` line sets `device_path`; an `index = "..."` line stores
the value and returns `device_path` when `local_driver == DRIVER` and the
value equals the target.  Every other line shape is ignored by this scan. -/
def gdpbiGo (target local_driver device_path index : String) : List SLine → String
  | [] => ""
  | SLine.driver d :: rest => gdpbiGo target d "" "" rest
  | SLine.driverPath _ :: rest => gdpbiGo target local_driver device_path index rest
  | SLine.device _ :: rest => gdpbiGo target local_driver device_path index rest
  | SLine.devicePath p :: rest => gdpbiGo target local_driver p index rest
  | SLine.indexAttr i :: rest =>
      if local_driver = DRIVER ∧ i = target then device_path
      else gdpbiGo target local_driver device_path i rest
  | SLine.currentVty _ :: rest => gdpbiGo target local_driver device_path index rest
  | SLine.vtermState _ :: rest => gdpbiGo target local_driver device_path index rest
  | SLine.other :: rest => gdpbiGo target local_driver device_path index rest

/-- `get_device_path_by_index`: scan with the script's initial state (all
variables empty); returns `""` when no line matched after the full scan. -/
def get_device_path_by_index (target : String) (out : List SLine) : String :=
  gdpbiGo target "" "" "" out

/-- Scan loop of `get_device_path_by_partition` (hvcsadmin.py lines 282-325).
A `Driver = "..."` line resets `device_path`, `found_partition`, `found_slot`;
a `Device path = "..."` line sets `device_path`; a `current_vty` line whose
value matches the location-code grammar stores partition and slot and returns
`device_path` when the driver matches, the partition equals the target and
the slot is the string "0". -/
def gdpbpGo (target local_driver found_partition found_slot device_path : String) :
    List SLine → String
  | [] => ""
  | SLine.driver d :: rest => gdpbpGo target d "" "" "" rest
  | SLine.driverPath _ :: rest =>
      gdpbpGo target local_driver found_partition found_slot device_path rest
  | SLine.device _ :: rest =>
      gdpbpGo target local_driver found_partition found_slot device_path rest
  | SLine.devicePath p :: rest =>
      gdpbpGo target local_driver found_partition found_slot p rest
  | SLine.indexAttr _ :: rest =>
      gdpbpGo target local_driver found_partition found_slot device_path rest
  | SLine.currentVty v :: rest =>
      match parseClc v with
      | some (_, p, s) =>
          if local_driver = DRIVER ∧ target = p ∧ s = "0" then device_path
          else gdpbpGo target local_driver p s device_path rest
      | none => gdpbpGo target local_driver found_partition found_slot device_path rest
  | SLine.vtermState _ :: rest =>
      gdpbpGo target local_driver found_partition found_slot device_path rest
  | SLine.other :: rest =>
      gdpbpGo target local_driver found_partition found_slot device_path rest

def get_device_path_by_partition (target : String) (out : List SLine) : String :=
  gdpbpGo target "" "" "" "" out

/-- Recorded pseudo-filesystem interactions. -/
inductive Eff
  | checkDev (p : String)
  | scan
  | checkAttr (p : String)
  | readAttr (p : String)
  | writeAttr (p v : String) (ok : Bool)
deriving DecidableEq

def Eff.isWrite : Eff → Bool
  | .writeAttr _ _ _ => true
  | _ => false

def Eff.isOk : Eff → Bool
  | .writeAttr _ _ ok => ok
  | _ => false

def writeTargets (effs : List Eff) : List String :=
  effs.filterMap fun e =>
    match e with
    | .writeAttr p _ _ => some p
    | _ => none

/-- Scan loop of `closeall` (hvcsadmin.py lines 152-197).  `wf p` tells
whether a write to pseudo-filesystem file `p` succeeds (the script wraps each
write in try/except and swallows failures).  A `Driver = "..."` line resets
`local_device` and `device_path` but, as in the script, not `vterm_state`;
a `vterm_state = "..."` line stores the value and, when the driver matches and
the value is "1", attempts a write of "0" to `device_path`/vterm_state. -/
def closeallGo (wf : String → Bool)
    (local_driver local_device vterm_state device_path : String) : List SLine → List Eff
  | [] => []
  | SLine.driver d :: rest => closeallGo wf d "" vterm_state "" rest
  | SLine.driverPath _ :: rest =>
      closeallGo wf local_driver local_device vterm_state device_path rest
  | SLine.device n :: rest => closeallGo wf local_driver n vterm_state device_path rest
  | SLine.devicePath p :: rest => closeallGo wf local_driver local_device vterm_state p rest
  | SLine.indexAttr _ :: rest =>
      closeallGo wf local_driver local_device vterm_state device_path rest
  | SLine.currentVty _ :: rest =>
      closeallGo wf local_driver local_device vterm_state device_path rest
  | SLine.vtermState v :: rest =>
      if local_driver = DRIVER ∧ v = "1" then
        Eff.writeAttr (device_path ++ "/vterm_state") "0" (wf (device_path ++ "/vterm_state"))
          :: closeallGo wf local_driver local_device v device_path rest
      else closeallGo wf local_driver local_device v device_path rest
  | SLine.other :: rest =>
      closeallGo wf local_driver local_device vterm_state device_path rest

def closeall (wf : String → Bool) (out : List SLine) : List Eff :=
  closeallGo wf "" "" "" "" out

/-- Scan loop of `rescan` (hvcsadmin.py lines 118-150).  A `Driver = "..."`
line sets `local_driver` and resets `driver_path`; a `Driver path = "..."`
line sets `driver_path` and, when the driver matches, attempts to write "1"
to `driver_path`/rescan: on success the function returns at once (flag
`true`), on failure the exception is swallowed and the scan continues.  If
the scan ends without a successful write the script reports "not found"
(flag `false`). -/
def rescanGo (wf : String → Bool) (local_driver driver_path : String) :
    List SLine → List Eff × Bool
  | [] => ([], false)
  | SLine.driver d :: rest => rescanGo wf d "" rest
  | SLine.driverPath p :: rest =>
      if local_driver = DRIVER then
        if wf (p ++ "/rescan") then ([Eff.writeAttr (p ++ "/rescan") "1" true], true)
        else
          let r := rescanGo wf local_driver p rest
          (Eff.writeAttr (p ++ "/rescan") "1" false :: r.1, r.2)
      else rescanGo wf local_driver p rest
  | SLine.device _ :: rest => rescanGo wf local_driver driver_path rest
  | SLine.devicePath _ :: rest => rescanGo wf local_driver driver_path rest
  | SLine.indexAttr _ :: rest => rescanGo wf local_driver driver_path rest
  | SLine.currentVty _ :: rest => rescanGo wf local_driver driver_path rest
  | SLine.vtermState _ :: rest => rescanGo wf local_driver driver_path rest
  | SLine.other :: rest => rescanGo wf local_driver driver_path rest

def rescan (wf : String → Bool) (out : List SLine) : List Eff × Bool :=
  rescanGo wf "" "" out

/-! ### Block-structured systool output

The spec describes the scan input as a sequence of device blocks.  A `Block`
holds a driver name, a device path and the optional attribute lines of one
block; `renderBlocks` lays blocks out as the line sequence systool prints
(driver line, device-path line, then attribute lines). -/

structure Block where
  driver : String
  path : String
  devName : Option String := none
  idx : Option String := none
  vty : Option String := none
  vterm : Option String := none

def optLine (f : String → SLine) : Option String → List SLine
  | some v => [f v]
  | none => []

def renderBlock (b : Block) : List SLine :=
  SLine.driver b.driver :: SLine.devicePath b.path ::
    (optLine SLine.device b.devName ++ optLine SLine.indexAttr b.idx ++
     optLine SLine.currentVty b.vty ++ optLine SLine.vtermState b.vterm)

def renderBlocks : List Block → List SLine
  | [] => []
  | b :: bs => renderBlock b ++ renderBlocks bs

/-- Spec-side resolution by index (from the spec's words, for comparison):
the device path of the first block whose driver name matches the configured
driver and whose index attribute is string-equal to the target; `""` when no
block matches. -/
def specResolveByIndex (t : String) (bs : List Block) : String :=
  match bs.find? (fun b => decide (b.driver = DRIVER ∧ b.idx = some t)) with
  | some b => b.path
  | none => ""

def vtyMatches (t : String) (b : Block) : Bool :=
  decide (b.driver = DRIVER) &&
    match b.vty with
    | some s =>
        match parseClc s with
        | some (_, p, sl) => decide (t = p) && decide (sl = "0")
        | none => false
    | none => false

/-- Spec-side resolution by partition (from the spec's words): the device
path of the first block whose driver matches, whose `current_vty` parses as a
location code with partition equal to the target and slot equal to "0". -/
def specResolveByPartition (t : String) (bs : List Block) : String :=
  match bs.find? (vtyMatches t) with
  | some b => b.path
  | none => ""

lemma gdpbiGo_renderBlocks (t : String) :
    ∀ (bs : List Block) (d p i : String),
      gdpbiGo t d p i (renderBlocks bs) = specResolveByIndex t bs := by
  intro bs
  induction bs with
  | nil => intro d p i; rfl
  | cons b bs ih =>
    intro d p i
    show gdpbiGo t d p i (renderBlock b ++ renderBlocks bs) = _
    simp only [renderBlock, List.cons_append, gdpbiGo]
    cases hdn : b.devName with
    | none =>
      cases hidx : b.idx with
      | none =>
        cases hvty : b.vty with
        | none =>
          cases hvt : b.vterm with
          | none =>
            simp [optLine, gdpbiGo, ih, specResolveByIndex, List.find?, hidx]
          | some v =>
            simp [optLine, gdpbiGo, ih, specResolveByIndex, List.find?, hidx]
        | some v =>
          cases hvt : b.vterm with
          | none =>
            simp [optLine, gdpbiGo, ih, specResolveByIndex, List.find?, hidx]
          | some w =>
            simp [optLine, gdpbiGo, ih, specResolveByIndex, List.find?, hidx]
      | some j =>
        by_cases hc : b.driver = DRIVER ∧ j = t
        · simp [optLine, gdpbiGo, hc, specResolveByIndex, List.find?, hidx]
        · have hc' : ¬ (b.driver = DRIVER ∧ b.idx = some t) := by
            simp only [hidx, Option.some.injEq]; exact hc
          cases hvty : b.vty with
          | none =>
            cases hvt : b.vterm with
            | none =>
              simp [optLine, gdpbiGo, hc, ih, specResolveByIndex, List.find?, hidx, hc']
            | some v =>
              simp [optLine, gdpbiGo, hc, ih, specResolveByIndex, List.find?, hidx, hc']
          | some v =>
            cases hvt : b.vterm with
            | none =>
              simp [optLine, gdpbiGo, hc, ih, specResolveByIndex, List.find?, hidx, hc']
            | some w =>
              simp [optLine, gdpbiGo, hc, ih, specResolveByIndex, List.find?, hidx, hc']
    | some n =>
      cases hidx : b.idx with
      | none =>
        cases hvty : b.vty with
        | none =>
          cases hvt : b.vterm with
          | none =>
            simp [optLine, gdpbiGo, ih, specResolveByIndex, List.find?, hidx]
          | some v =>
            simp [optLine, gdpbiGo, ih, specResolveByIndex, List.find?, hidx]
        | some v =>
          cases hvt : b.vterm with
          | none =>
            simp [optLine, gdpbiGo, ih, specResolveByIndex, List.find?, hidx]
          | some w =>
            simp [optLine, gdpbiGo, ih, specResolveByIndex, List.find?, hidx]
      | some j =>
        by_cases hc : b.driver = DRIVER ∧ j = t
        · simp [optLine, gdpbiGo, hc, specResolveByIndex, List.find?, hidx]
        · have hc' : ¬ (b.driver = DRIVER ∧ b.idx = some t) := by
            simp only [hidx, Option.some.injEq]; exact hc
          cases hvty : b.vty with
          | none =>
            cases hvt : b.vterm with
            | none =>
              simp [optLine, gdpbiGo, hc, ih, specResolveByIndex, List.find?, hidx, hc']
            | some v =>
              simp [optLine, gdpbiGo, hc, ih, specResolveByIndex, List.find?, hidx, hc']
          | some v =>
            cases hvt : b.vterm with
            | none =>
              simp [optLine, gdpbiGo, hc, ih, specResolveByIndex, List.find?, hidx, hc']
            | some w =>
              simp [optLine, gdpbiGo, hc, ih, specResolveByIndex, List.find?, hidx, hc']

lemma gdpbpGo_skipDevice (t d fp fs p : String) (o : Option String) (ls : List SLine) :
    gdpbpGo t d fp fs p (optLine SLine.device o ++ ls) = gdpbpGo t d fp fs p ls := by
  cases o <;> rfl

lemma gdpbpGo_skipIdx (t d fp fs p : String) (o : Option String) (ls : List SLine) :
    gdpbpGo t d fp fs p (optLine SLine.indexAttr o ++ ls) = gdpbpGo t d fp fs p ls := by
  cases o <;> rfl

lemma gdpbpGo_skipVterm (t d fp fs p : String) (o : Option String) (ls : List SLine) :
    gdpbpGo t d fp fs p (optLine SLine.vtermState o ++ ls) = gdpbpGo t d fp fs p ls := by
  cases o <;> rfl

lemma gdpbpGo_renderBlocks (t : String) :
    ∀ (bs : List Block) (d fp fs p : String),
      gdpbpGo t d fp fs p (renderBlocks bs) = specResolveByPartition t bs := by
  intro bs
  induction bs with
  | nil => intro d fp fs p; rfl
  | cons b bs ih =>
    intro d fp fs p
    show gdpbpGo t d fp fs p (renderBlock b ++ renderBlocks bs) = _
    simp only [renderBlock, List.cons_append, gdpbpGo, List.append_eq, List.append_assoc]
    rw [gdpbpGo_skipDevice, gdpbpGo_skipIdx]
    cases hvty : b.vty with
    | none =>
      rw [show optLine SLine.currentVty none = [] from rfl, List.nil_append,
        gdpbpGo_skipVterm, ih]
      simp [specResolveByPartition, List.find?, vtyMatches, hvty]
    | some s =>
      rw [show optLine SLine.currentVty (some s) = [SLine.currentVty s] from rfl]
      simp only [List.cons_append, List.nil_append, gdpbpGo]
      cases hp : parseClc s with
      | none =>
        show gdpbpGo t b.driver "" "" b.path
            (optLine SLine.vtermState b.vterm ++ renderBlocks bs) =
          specResolveByPartition t (b :: bs)
        rw [gdpbpGo_skipVterm, ih]
        simp [specResolveByPartition, List.find?, vtyMatches, hvty, hp]
      | some triple =>
        obtain ⟨m, pp, sl⟩ := triple
        show (if b.driver = DRIVER ∧ t = pp ∧ sl = "0" then b.path
              else gdpbpGo t b.driver pp sl b.path
                (optLine SLine.vtermState b.vterm ++ renderBlocks bs)) =
          specResolveByPartition t (b :: bs)
        by_cases hc : b.driver = DRIVER ∧ t = pp ∧ sl = "0"
        · rw [if_pos hc]
          simp [specResolveByPartition, List.find?, vtyMatches, hvty, hp, hc.1, hc.2.1, hc.2.2]
        · rw [if_neg hc, gdpbpGo_skipVterm, ih]
          have hm : vtyMatches t b = false := by
            simp only [vtyMatches, hvty, hp]
            rcases not_and_or.mp hc with h1 | h2
            · simp [h1]
            · rcases not_and_or.mp h2 with h3 | h4
              · simp [h3]
              · simp [h4]
          simp [specResolveByPartition, List.find?, hm]

/-- C1: resolution by index over block-structured systool output returns the
device path of the first block whose driver name equals the configured driver
"hvcs" and whose index attribute is string-equal to the target index; if no
block matches after the full scan the empty (not-found) string is returned.
String equality is exact, so the leading-zero variant "01" does not resolve
for target "1" (second conjunct). -/
theorem c1_resolve_by_index :
    (∀ (t : String) (bs : List Block),
        get_device_path_by_index t (renderBlocks bs) = specResolveByIndex t bs) ∧
      get_device_path_by_index "1"
        (renderBlocks [{ driver := "hvcs", path := "/sys/devices/vio/30000001",
                         idx := some "01" }]) = "" := by
  constructor
  · intro t bs
    exact gdpbiGo_renderBlocks t bs "" "" ""
  · decide

/-- C4: resolution by partition returns a block's device path exactly when
the block's driver matches, its `current_vty` value parses as
`<machine>.<model>.<serial>-V<partition>-C<slot>`, the parsed partition
equals the target and the parsed slot is the string "0"; the first matching
block in scan order wins.  Concretely, "9406.520.100048A-V15-C0" parses to
partition "15" and slot "0" and matches a query for partition "15", while the
same code with slot suffix C1 does not match. -/
theorem c4_resolve_by_partition :
    (∀ (t : String) (bs : List Block),
        get_device_path_by_partition t (renderBlocks bs) = specResolveByPartition t bs) ∧
    parseClc "9406.520.100048A-V15-C0" = some ("9406.520.100048A", "15", "0") ∧
    get_device_path_by_partition "15"
      (renderBlocks [{ driver := "hvcs", path := "/sys/devices/vio/30000001",
                       vty := some "9406.520.100048A-V15-C0" }]) =
      "/sys/devices/vio/30000001" ∧
    get_device_path_by_partition "15"
      (renderBlocks [{ driver := "hvcs", path := "/sys/devices/vio/30000001",
                       vty := some "9406.520.100048A-V15-C1" }]) = "" := by
  refine ⟨?_, by decide, by decide, by decide⟩
  intro t bs
  exact gdpbpGo_renderBlocks t bs "" "" "" ""

lemma writeTargets_nil : writeTargets [] = [] := rfl

lemma writeTargets_write (p v : String) (ok : Bool) (es : List Eff) :
    writeTargets (Eff.writeAttr p v ok :: es) = p :: writeTargets es := by
  simp [writeTargets]

lemma closeallGo_targets_indep (wf wf' : String → Bool) :
    ∀ (ls : List SLine) (a b c d : String),
      writeTargets (closeallGo wf a b c d ls) = writeTargets (closeallGo wf' a b c d ls) := by
  intro ls
  induction ls with
  | nil => intro a b c d; rfl
  | cons l rest ih =>
    intro a b c d
    cases l with
    | driver dn => simpa only [closeallGo] using ih dn "" c ""
    | driverPath p => simpa only [closeallGo] using ih a b c d
    | device n => simpa only [closeallGo] using ih a n c d
    | devicePath p => simpa only [closeallGo] using ih a b c p
    | indexAttr v => simpa only [closeallGo] using ih a b c d
    | currentVty v => simpa only [closeallGo] using ih a b c d
    | vtermState v =>
      by_cases hc : a = DRIVER ∧ v = "1"
      · simp only [closeallGo, if_pos hc, writeTargets_write]
        rw [ih a b v d]
      · simp only [closeallGo, if_neg hc]
        exact ih a b v d
    | other => simpa only [closeallGo] using ih a b c d

lemma closeallGo_allWrite (wf : String → Bool) :
    ∀ (ls : List SLine) (a b c d : String),
      (closeallGo wf a b c d ls).all Eff.isWrite = true := by
  intro ls
  induction ls with
  | nil => intro a b c d; rfl
  | cons l rest ih =>
    intro a b c d
    cases l with
    | driver dn => simpa only [closeallGo] using ih dn "" c ""
    | driverPath p => simpa only [closeallGo] using ih a b c d
    | device n => simpa only [closeallGo] using ih a n c d
    | devicePath p => simpa only [closeallGo] using ih a b c p
    | indexAttr v => simpa only [closeallGo] using ih a b c d
    | currentVty v => simpa only [closeallGo] using ih a b c d
    | vtermState v =>
      by_cases hc : a = DRIVER ∧ v = "1"
      · simp only [closeallGo, if_pos hc, List.all_cons, Eff.isWrite, Bool.true_and]
        exact ih a b v d
      · simp only [closeallGo, if_neg hc]
        exact ih a b v d
    | other => simpa only [closeallGo] using ih a b c d

lemma closeallGo_devName (wf : String → Bool) (a b c d : String) (o : Option String)
    (ls : List SLine) :
    closeallGo wf a b c d (optLine SLine.device o ++ ls) = closeallGo wf a (o.getD b) c d ls := by
  cases o <;> rfl

lemma closeallGo_skipIdx (wf : String → Bool) (a b c d : String) (o : Option String)
    (ls : List SLine) :
    closeallGo wf a b c d (optLine SLine.indexAttr o ++ ls) = closeallGo wf a b c d ls := by
  cases o <;> rfl

lemma closeallGo_skipVty (wf : String → Bool) (a b c d : String) (o : Option String)
    (ls : List SLine) :
    closeallGo wf a b c d (optLine SLine.currentVty o ++ ls) = closeallGo wf a b c d ls := by
  cases o <;> rfl

lemma closeallGo_renderBlocks (wf : String → Bool) :
    ∀ (bs : List Block) (a b c d : String),
      writeTargets (closeallGo wf a b c d (renderBlocks bs)) =
        (bs.filter fun bl => decide (bl.driver = DRIVER ∧ bl.vterm = some "1")).map
          (fun bl => bl.path ++ "/vterm_state") := by
  intro bs
  induction bs with
  | nil => intro a b c d; rfl
  | cons bl bs ih =>
    intro a b c d
    show writeTargets (closeallGo wf a b c d (renderBlock bl ++ renderBlocks bs)) = _
    simp only [renderBlock, List.cons_append, closeallGo, List.append_eq, List.append_assoc]
    rw [closeallGo_devName, closeallGo_skipIdx, closeallGo_skipVty]
    cases hvt : bl.vterm with
    | none =>
      rw [show optLine SLine.vtermState none = [] from rfl, List.nil_append, ih]
      simp [List.filter_cons, hvt]
    | some v =>
      rw [show optLine SLine.vtermState (some v) = [SLine.vtermState v] from rfl]
      simp only [List.cons_append, List.nil_append, closeallGo]
      by_cases hc : bl.driver = DRIVER ∧ v = "1"
      · rw [if_pos hc, writeTargets_write]
        simp only [List.append_eq, List.nil_append]
        rw [ih]
        have hcond : bl.driver = DRIVER ∧ bl.vterm = some "1" :=
          ⟨hc.1, by rw [hvt, hc.2]⟩
        simp [List.filter_cons, hcond]
      · rw [if_neg hc]
        simp only [List.append_eq, List.nil_append]
        rw [ih]
        have hcond : ¬ (bl.driver = DRIVER ∧ bl.vterm = some "1") := by
          rw [hvt]
          simp only [Option.some.injEq]
          exact hc
        simp [List.filter_cons, hcond]

def blocksC6 : List Block :=
  [{ driver := "hvcs", path := "/sys/devices/vio/30000001", devName := some "30000001",
     vterm := some "1" },
   { driver := "hvcs", path := "/sys/devices/vio/30000002", devName := some "30000002",
     vterm := some "1" },
   { driver := "hvcs", path := "/sys/devices/vio/30000003", devName := some "30000003",
     vterm := some "1" }]

def wfC6 : String → Bool := fun p => decide (p ≠ "/sys/devices/vio/30000002/vterm_state")

/-- C6: `closeall` writes "0" to the vterm_state file of every block whose
driver equals the configured driver and whose vterm_state attribute is "1",
in scan order (third conjunct); the set of attempted writes does not depend
on which writes fail, so a failure on one adapter does not abort the
remaining adapters (first conjunct); the scan performs only write effects —
no post-write read-back (second conjunct).  Concretely, with three matching
Connected adapters and a write failure on the second, all three writes are
attempted and the first and third succeed (fourth conjunct). -/
theorem c6_closeall :
    (∀ (wf wf' : String → Bool) (out : List SLine),
        writeTargets (closeall wf out) = writeTargets (closeall wf' out)) ∧
    (∀ (wf : String → Bool) (out : List SLine),
        (closeall wf out).all Eff.isWrite = true) ∧
    (∀ (wf : String → Bool) (bs : List Block),
        writeTargets (closeall wf (renderBlocks bs)) =
          (bs.filter fun bl => decide (bl.driver = DRIVER ∧ bl.vterm = some "1")).map
            (fun bl => bl.path ++ "/vterm_state")) ∧
    closeall wfC6 (renderBlocks blocksC6) =
      [Eff.writeAttr "/sys/devices/vio/30000001/vterm_state" "0" true,
       Eff.writeAttr "/sys/devices/vio/30000002/vterm_state" "0" false,
       Eff.writeAttr "/sys/devices/vio/30000003/vterm_state" "0" true] := by
  refine ⟨?_, ?_, ?_, by decide⟩
  · intro wf wf' out
    exact closeallGo_targets_indep wf wf' out "" "" "" ""
  · intro wf out
    exact closeallGo_allWrite wf out "" "" "" ""
  · intro wf bs
    exact closeallGo_renderBlocks wf bs "" "" "" ""

lemma gdpbiGo_state_indep (t a : String) (h : a ≠ DRIVER) :
    ∀ (ls : List SLine) (p i p' i' : String),
      gdpbiGo t a p i ls = gdpbiGo t a p' i' ls := by
  intro ls
  induction ls with
  | nil => intro p i p' i'; rfl
  | cons l rest ih =>
    intro p i p' i'
    cases l with
    | driver dn => simp only [gdpbiGo]
    | driverPath q => simpa only [gdpbiGo] using ih p i p' i'
    | device n => simpa only [gdpbiGo] using ih p i p' i'
    | devicePath q => simpa only [gdpbiGo] using ih q i q i'
    | indexAttr j =>
      have hc : ¬ (a = DRIVER ∧ j = t) := fun hx => h hx.1
      simp only [gdpbiGo, if_neg hc]
      exact ih p j p' j
    | currentVty v => simpa only [gdpbiGo] using ih p i p' i'
    | vtermState v => simpa only [gdpbiGo] using ih p i p' i'
    | other => simpa only [gdpbiGo] using ih p i p' i'

lemma gdpbiGo_nondriver_front (t a : String) (h : a ≠ DRIVER) :
    ∀ (pre : List SLine), pre.all (fun l => !SLine.isDriver l) = true →
      ∀ (rest : List SLine) (p i p' i' : String),
        gdpbiGo t a p i (pre ++ rest) = gdpbiGo t a p' i' rest := by
  intro pre
  induction pre with
  | nil => intro _ rest p i p' i'; exact gdpbiGo_state_indep t a h rest p i p' i'
  | cons l pre ih =>
    intro hall rest p i p' i'
    have hl : (!SLine.isDriver l) = true := (List.all_cons .. ▸ hall |> Bool.and_elim_left)
    have hpre : pre.all (fun l => !SLine.isDriver l) = true :=
      (List.all_cons .. ▸ hall |> Bool.and_elim_right)
    cases l with
    | driver dn => simp [SLine.isDriver] at hl
    | driverPath q => simpa only [List.cons_append, gdpbiGo] using ih hpre rest p i p' i'
    | device n => simpa only [List.cons_append, gdpbiGo] using ih hpre rest p i p' i'
    | devicePath q => simpa only [List.cons_append, gdpbiGo] using ih hpre rest q i p' i'
    | indexAttr j =>
      have hc : ¬ (a = DRIVER ∧ j = t) := fun hx => h hx.1
      simp only [List.cons_append, gdpbiGo, if_neg hc]
      exact ih hpre rest p j p' i'
    | currentVty v => simpa only [List.cons_append, gdpbiGo] using ih hpre rest p i p' i'
    | vtermState v => simpa only [List.cons_append, gdpbiGo] using ih hpre rest p i p' i'
    | other => simpa only [List.cons_append, gdpbiGo] using ih hpre rest p i p' i'

lemma gdpbpGo_state_indep (t a : String) (h : a ≠ DRIVER) :
    ∀ (ls : List SLine) (fp fs p fp' fs' p' : String),
      gdpbpGo t a fp fs p ls = gdpbpGo t a fp' fs' p' ls := by
  intro ls
  induction ls with
  | nil => intro fp fs p fp' fs' p'; rfl
  | cons l rest ih =>
    intro fp fs p fp' fs' p'
    cases l with
    | driver dn => simp only [gdpbpGo]
    | driverPath q => simpa only [gdpbpGo] using ih fp fs p fp' fs' p'
    | device n => simpa only [gdpbpGo] using ih fp fs p fp' fs' p'
    | devicePath q => simpa only [gdpbpGo] using ih fp fs q fp' fs' q
    | indexAttr j => simpa only [gdpbpGo] using ih fp fs p fp' fs' p'
    | currentVty v =>
      simp only [gdpbpGo]
      cases parseClc v with
      | none => exact ih fp fs p fp' fs' p'
      | some triple =>
        obtain ⟨m, pp, sl⟩ := triple
        have hc : ¬ (a = DRIVER ∧ t = pp ∧ sl = "0") := fun hx => h hx.1
        simp only [if_neg hc]
        exact ih pp sl p pp sl p'
    | vtermState v => simpa only [gdpbpGo] using ih fp fs p fp' fs' p'
    | other => simpa only [gdpbpGo] using ih fp fs p fp' fs' p'

lemma gdpbpGo_nondriver_front (t a : String) (h : a ≠ DRIVER) :
    ∀ (pre : List SLine), pre.all (fun l => !SLine.isDriver l) = true →
      ∀ (rest : List SLine) (fp fs p fp' fs' p' : String),
        gdpbpGo t a fp fs p (pre ++ rest) = gdpbpGo t a fp' fs' p' rest := by
  intro pre
  induction pre with
  | nil => intro _ rest fp fs p fp' fs' p'; exact gdpbpGo_state_indep t a h rest fp fs p fp' fs' p'
  | cons l pre ih =>
    intro hall rest fp fs p fp' fs' p'
    have hl : (!SLine.isDriver l) = true := (List.all_cons .. ▸ hall |> Bool.and_elim_left)
    have hpre : pre.all (fun l => !SLine.isDriver l) = true :=
      (List.all_cons .. ▸ hall |> Bool.and_elim_right)
    cases l with
    | driver dn => simp [SLine.isDriver] at hl
    | driverPath q => simpa only [List.cons_append, gdpbpGo] using ih hpre rest fp fs p fp' fs' p'
    | device n => simpa only [List.cons_append, gdpbpGo] using ih hpre rest fp fs p fp' fs' p'
    | devicePath q => simpa only [List.cons_append, gdpbpGo] using ih hpre rest fp fs q fp' fs' p'
    | indexAttr j => simpa only [List.cons_append, gdpbpGo] using ih hpre rest fp fs p fp' fs' p'
    | currentVty v =>
      simp only [List.cons_append, gdpbpGo]
      cases parseClc v with
      | none => exact ih hpre rest fp fs p fp' fs' p'
      | some triple =>
        obtain ⟨m, pp, sl⟩ := triple
        have hc : ¬ (a = DRIVER ∧ t = pp ∧ sl = "0") := fun hx => h hx.1
        simp only [if_neg hc]
        exact ih hpre rest pp sl p fp' fs' p'
    | vtermState v => simpa only [List.cons_append, gdpbpGo] using ih hpre rest fp fs p fp' fs' p'
    | other => simpa only [List.cons_append, gdpbpGo] using ih hpre rest fp fs p fp' fs' p'

lemma closeallGo_vterm_indep (wf : String → Bool) :
    ∀ (ls : List SLine) (a b c c' d : String),
      closeallGo wf a b c d ls = closeallGo wf a b c' d ls := by
  intro ls
  induction ls with
  | nil => intro a b c c' d; rfl
  | cons l rest ih =>
    intro a b c c' d
    cases l with
    | driver dn => simpa only [closeallGo] using ih dn "" c c' ""
    | driverPath q => simpa only [closeallGo] using ih a b c c' d
    | device n => simpa only [closeallGo] using ih a n c c' d
    | devicePath q => simpa only [closeallGo] using ih a b c c' q
    | indexAttr j => simpa only [closeallGo] using ih a b c c' d
    | currentVty v => simpa only [closeallGo] using ih a b c c' d
    | vtermState v => simp only [closeallGo]
    | other => simpa only [closeallGo] using ih a b c c' d

lemma closeallGo_state_indep (wf : String → Bool) (a : String) (h : a ≠ DRIVER) :
    ∀ (ls : List SLine) (b c d b' c' d' : String),
      closeallGo wf a b c d ls = closeallGo wf a b' c' d' ls := by
  intro ls
  induction ls with
  | nil => intro b c d b' c' d'; rfl
  | cons l rest ih =>
    intro b c d b' c' d'
    cases l with
    | driver dn =>
      simp only [closeallGo]
      exact closeallGo_vterm_indep wf rest dn "" c c' ""
    | driverPath q => simpa only [closeallGo] using ih b c d b' c' d'
    | device n => simpa only [closeallGo] using ih n c d n c' d'
    | devicePath q => simpa only [closeallGo] using ih b c q b' c' q
    | indexAttr j => simpa only [closeallGo] using ih b c d b' c' d'
    | currentVty v => simpa only [closeallGo] using ih b c d b' c' d'
    | vtermState v =>
      have hc : ¬ (a = DRIVER ∧ v = "1") := fun hx => h hx.1
      simp only [closeallGo, if_neg hc]
      exact ih b v d b' v d'
    | other => simpa only [closeallGo] using ih b c d b' c' d'

lemma closeallGo_nondriver_front (wf : String → Bool) (a : String) (h : a ≠ DRIVER) :
    ∀ (pre : List SLine), pre.all (fun l => !SLine.isDriver l) = true →
      ∀ (rest : List SLine) (b c d b' c' d' : String),
        closeallGo wf a b c d (pre ++ rest) = closeallGo wf a b' c' d' rest := by
  intro pre
  induction pre with
  | nil => intro _ rest b c d b' c' d'; exact closeallGo_state_indep wf a h rest b c d b' c' d'
  | cons l pre ih =>
    intro hall rest b c d b' c' d'
    have hl : (!SLine.isDriver l) = true := (List.all_cons .. ▸ hall |> Bool.and_elim_left)
    have hpre : pre.all (fun l => !SLine.isDriver l) = true :=
      (List.all_cons .. ▸ hall |> Bool.and_elim_right)
    cases l with
    | driver dn => simp [SLine.isDriver] at hl
    | driverPath q => simpa only [List.cons_append, closeallGo] using ih hpre rest b c d b' c' d'
    | device n => simpa only [List.cons_append, closeallGo] using ih hpre rest n c d b' c' d'
    | devicePath q => simpa only [List.cons_append, closeallGo] using ih hpre rest b c q b' c' d'
    | indexAttr j => simpa only [List.cons_append, closeallGo] using ih hpre rest b c d b' c' d'
    | currentVty v => simpa only [List.cons_append, closeallGo] using ih hpre rest b c d b' c' d'
    | vtermState v =>
      have hc : ¬ (a = DRIVER ∧ v = "1") := fun hx => h hx.1
      simp only [List.cons_append, closeallGo, if_neg hc]
      exact ih hpre rest b v d b' c' d'
    | other => simpa only [List.cons_append, closeallGo] using ih hpre rest b c d b' c' d'

/-- C7: during every scan at most one device block is current.  Attribute
lines encountered before any `Driver = "..."` line are attached to no device
and never cause a match or a write: dropping such a driver-free line segment
from the front of the input never changes the result of the index scan, the
partition scan, or the closeall sweep (first three conjuncts).  Each new
`Driver = "..."` line resets the scan state, so the result after a driver
line is independent of every previously accumulated state value — values
from an earlier block are never used to resolve or mutate a later block
(last three conjuncts). -/
theorem c7_single_current_block :
    (∀ (t : String) (pre rest : List SLine),
        pre.all (fun l => !SLine.isDriver l) = true →
        get_device_path_by_index t (pre ++ rest) = get_device_path_by_index t rest) ∧
    (∀ (t : String) (pre rest : List SLine),
        pre.all (fun l => !SLine.isDriver l) = true →
        get_device_path_by_partition t (pre ++ rest) = get_device_path_by_partition t rest) ∧
    (∀ (wf : String → Bool) (pre rest : List SLine),
        pre.all (fun l => !SLine.isDriver l) = true →
        closeall wf (pre ++ rest) = closeall wf rest) ∧
    (∀ (t dn : String) (rest : List SLine) (a p i a' p' i' : String),
        gdpbiGo t a p i (SLine.driver dn :: rest) = gdpbiGo t a' p' i' (SLine.driver dn :: rest)) ∧
    (∀ (t dn : String) (rest : List SLine) (a fp fs p a' fp' fs' p' : String),
        gdpbpGo t a fp fs p (SLine.driver dn :: rest) =
          gdpbpGo t a' fp' fs' p' (SLine.driver dn :: rest)) ∧
    (∀ (wf : String → Bool) (dn : String) (rest : List SLine) (a b c d a' b' c' d' : String),
        closeallGo wf a b c d (SLine.driver dn :: rest) =
          closeallGo wf a' b' c' d' (SLine.driver dn :: rest)) := by
  have hne : ("" : String) ≠ DRIVER := by decide
  refine ⟨?_, ?_, ?_, ?_, ?_, ?_⟩
  · intro t pre rest hall
    exact gdpbiGo_nondriver_front t "" hne pre hall rest "" "" "" ""
  · intro t pre rest hall
    exact gdpbpGo_nondriver_front t "" hne pre hall rest "" "" "" "" "" ""
  · intro wf pre rest hall
    exact closeallGo_nondriver_front wf "" hne pre hall rest "" "" "" "" "" ""
  · intro t dn rest a p i a' p' i'
    simp only [gdpbiGo]
  · intro t dn rest a fp fs p a' fp' fs' p'
    simp only [gdpbpGo]
  · intro wf dn rest a b c d a' b' c' d'
    simp only [closeallGo]
    exact closeallGo_vterm_indep wf rest dn "" c c' ""

/-- Witness for C7 at concrete inputs: an `index` attribute line before any
driver line does not change the index scan's result, and a driver line wipes
the state accumulated by an earlier block. -/
theorem c7_witness :
    get_device_path_by_index "2"
        ([SLine.indexAttr "2", SLine.devicePath "/sys/devices/vio/30000009"] ++
          [SLine.driver "hvcs", SLine.devicePath "/sys/devices/vio/30000002",
           SLine.indexAttr "2"]) =
      get_device_path_by_index "2"
        [SLine.driver "hvcs", SLine.devicePath "/sys/devices/vio/30000002",
         SLine.indexAttr "2"] :=
  c7_single_current_block.1 "2"
    [SLine.indexAttr "2", SLine.devicePath "/sys/devices/vio/30000009"]
    [SLine.driver "hvcs", SLine.devicePath "/sys/devices/vio/30000002",
     SLine.indexAttr "2"] (by decide)

lemma all_dropLast_cons {α : Type} (f : α → Bool) (x : α) (xs : List α)
    (hx : f x = true) (hxs : xs.dropLast.all f = true) : ((x :: xs).dropLast.all f) = true := by
  cases xs with
  | nil => rfl
  | cons y ys =>
    rw [show (x :: y :: ys).dropLast = x :: (y :: ys).dropLast from rfl]
    simp only [List.all_cons, hx, Bool.true_and]
    exact hxs

lemma rescanGo_invariants (wf : String → Bool) :
    ∀ (ls : List SLine) (a p : String),
      ((rescanGo wf a p ls).1.filter Eff.isOk).length ≤ 1 ∧
      (rescanGo wf a p ls).2 = (rescanGo wf a p ls).1.any Eff.isOk ∧
      ((rescanGo wf a p ls).1.dropLast.all fun e => !Eff.isOk e) = true ∧
      ((rescanGo wf a p ls).1.all Eff.isWrite) = true := by
  intro ls
  induction ls with
  | nil => intro a p; refine ⟨by simp [rescanGo], by simp [rescanGo], by simp [rescanGo], by simp [rescanGo]⟩
  | cons l rest ih =>
    intro a p
    cases l with
    | driver dn => simpa only [rescanGo] using ih dn ""
    | driverPath q =>
      by_cases hd : a = DRIVER
      · by_cases hw : wf (q ++ "/rescan") = true
        · refine ⟨?_, ?_, ?_, ?_⟩ <;>
            simp [rescanGo, hd, hw, Eff.isOk, Eff.isWrite]
        · obtain ⟨h1, h2, h3, h4⟩ := ih a q
          have hred : rescanGo wf a p (SLine.driverPath q :: rest) =
              (Eff.writeAttr (q ++ "/rescan") "1" false :: (rescanGo wf a q rest).1,
               (rescanGo wf a q rest).2) := by
            simp [rescanGo, hd, hw]
          refine ⟨?_, ?_, ?_, ?_⟩
          · rw [hred]
            simpa [List.filter_cons, Eff.isOk] using h1
          · rw [hred]
            simpa [List.any_cons, Eff.isOk] using h2
          · rw [hred]
            exact all_dropLast_cons _ _ _ (by simp [Eff.isOk]) h3
          · rw [hred]
            simpa [List.all_cons, Eff.isWrite] using h4
      · simp only [rescanGo, if_neg hd]
        exact ih a q
    | device n => simpa only [rescanGo] using ih a p
    | devicePath q => simpa only [rescanGo] using ih a p
    | indexAttr v => simpa only [rescanGo] using ih a p
    | currentVty v => simpa only [rescanGo] using ih a p
    | vtermState v => simpa only [rescanGo] using ih a p
    | other => simpa only [rescanGo] using ih a p

def linesC9 : List SLine :=
  [SLine.driver "hvcs", SLine.driverPath "/sys/bus/vio/drivers/hvcs_A",
   SLine.driver "hvcs", SLine.driverPath "/sys/bus/vio/drivers/hvcs_B"]

def wfC9 : String → Bool := fun p => decide (p ≠ "/sys/bus/vio/drivers/hvcs_A/rescan")

/-- C9 counterexample: the claim says rescan writes "1" to the rescan
attribute of at most one driver directory — the first block in scan order
whose driver name equals the configured driver — and then stops.  On a scan
with two matching driver blocks where the write to the first block's
directory fails, the code attempts writes on two distinct directories and
the successful write lands on the second matching block, not the first. -/
theorem c9_counterexample :
    writeTargets (rescan wfC9 linesC9).1 =
      ["/sys/bus/vio/drivers/hvcs_A/rescan", "/sys/bus/vio/drivers/hvcs_B/rescan"] ∧
    (rescan wfC9 linesC9).1.filter Eff.isOk =
      [Eff.writeAttr "/sys/bus/vio/drivers/hvcs_B/rescan" "1" true] ∧
    ("/sys/bus/vio/drivers/hvcs_A/rescan" : String) ≠
      "/sys/bus/vio/drivers/hvcs_B/rescan" := by
  refine ⟨by decide, by decide, by decide⟩

/-- One driver-level block of `systool -b vio -D -p` output as `rescan`
consumes it: a driver line followed by its driver-path line. -/
structure DrvBlock where
  driver : String
  path : String
deriving DecidableEq

def renderDrvBlock (b : DrvBlock) : List SLine :=
  [SLine.driver b.driver, SLine.driverPath b.path]

def renderDrvBlocks : List DrvBlock → List SLine
  | [] => []
  | b :: bs => renderDrvBlock b ++ renderDrvBlocks bs

/-- Spec-side rescan, from the amended claim's words: the rescan write is
attempted at each matching driver block's path in scan order; a failed
attempt does not stop the scan; the scan stops at the first successful
write; if no matching block yields a successful write, the result is the
not-found failure flag. -/
def specRescan (wf : String → Bool) : List DrvBlock → List Eff × Bool
  | [] => ([], false)
  | b :: bs =>
      if b.driver = DRIVER then
        if wf (b.path ++ "/rescan") then
          ([Eff.writeAttr (b.path ++ "/rescan") "1" true], true)
        else
          (Eff.writeAttr (b.path ++ "/rescan") "1" false :: (specRescan wf bs).1,
           (specRescan wf bs).2)
      else specRescan wf bs

lemma rescanGo_renderDrvBlocks (wf : String → Bool) :
    ∀ (bs : List DrvBlock) (a p : String),
      rescanGo wf a p (renderDrvBlocks bs) = specRescan wf bs := by
  intro bs
  induction bs with
  | nil => intro a p; rfl
  | cons b bs ih =>
    intro a p
    show rescanGo wf a p (renderDrvBlock b ++ renderDrvBlocks bs) = _
    simp only [renderDrvBlock, List.cons_append, List.nil_append, rescanGo]
    by_cases hd : b.driver = DRIVER
    · by_cases hw : wf (b.path ++ "/rescan") = true
      · simp [specRescan, hd, hw]
      · simp [specRescan, hd, hw, ih]
    · simp [specRescan, hd, ih]

lemma specRescan_found (wf : String → Bool) :
    ∀ (bs : List DrvBlock) (b : DrvBlock),
      (bs.filter fun x => decide (x.driver = DRIVER)).find?
          (fun x => wf (x.path ++ "/rescan")) = some b →
      (specRescan wf bs).2 = true ∧
      (specRescan wf bs).1.getLast? =
        some (Eff.writeAttr (b.path ++ "/rescan") "1" true) := by
  intro bs
  induction bs with
  | nil => intro b h; cases h
  | cons b0 bs ih =>
    intro b h
    by_cases hd : b0.driver = DRIVER
    · rw [List.filter_cons, if_pos (by simpa using hd)] at h
      by_cases hw : wf (b0.path ++ "/rescan") = true
      · have hfc : ((b0 :: bs.filter fun x => decide (x.driver = DRIVER)).find?
            (fun x => wf (x.path ++ "/rescan"))) = some b0 := by
          simp [List.find?_cons, hw]
        rw [hfc] at h
        injection h with h'
        subst h'
        refine ⟨by simp [specRescan, hd, hw], ?_⟩
        simp [specRescan, hd, hw]
      · have hw' : wf (b0.path ++ "/rescan") = false := by
          revert hw; cases wf (b0.path ++ "/rescan") <;> simp
        have hfc : ((b0 :: bs.filter fun x => decide (x.driver = DRIVER)).find?
            (fun x => wf (x.path ++ "/rescan"))) =
            ((bs.filter fun x => decide (x.driver = DRIVER)).find?
              (fun x => wf (x.path ++ "/rescan"))) := by
          simp [List.find?_cons, hw']
        rw [hfc] at h
        obtain ⟨hflag, hlast⟩ := ih b h
        refine ⟨by simp [specRescan, hd, hw, hflag], ?_⟩
        have hred : (specRescan wf (b0 :: bs)).1 =
            Eff.writeAttr (b0.path ++ "/rescan") "1" false :: (specRescan wf bs).1 := by
          simp [specRescan, hd, hw]
        rw [hred]
        cases hr : (specRescan wf bs).1 with
        | nil => rw [hr] at hlast; cases hlast
        | cons y ys =>
          rw [List.getLast?_cons_cons]
          rw [hr] at hlast
          exact hlast
    · rw [List.filter_cons, if_neg (by simpa using hd)] at h
      obtain ⟨hflag, hlast⟩ := ih b h
      refine ⟨?_, ?_⟩ <;> simp [specRescan, hd, hflag, hlast]

lemma specRescan_none (wf : String → Bool) :
    ∀ (bs : List DrvBlock),
      (bs.filter fun x => decide (x.driver = DRIVER)).find?
          (fun x => wf (x.path ++ "/rescan")) = none →
      (specRescan wf bs).2 = false ∧
      writeTargets (specRescan wf bs).1 =
        (bs.filter fun x => decide (x.driver = DRIVER)).map
          (fun x => x.path ++ "/rescan") := by
  intro bs
  induction bs with
  | nil => intro _; exact ⟨rfl, rfl⟩
  | cons b0 bs ih =>
    intro h
    by_cases hd : b0.driver = DRIVER
    · rw [List.filter_cons, if_pos (by simpa using hd)] at h
      by_cases hw : wf (b0.path ++ "/rescan") = true
      · have hfc : ((b0 :: bs.filter fun x => decide (x.driver = DRIVER)).find?
            (fun x => wf (x.path ++ "/rescan"))) = some b0 := by
          simp [List.find?_cons, hw]
        rw [hfc] at h
        cases h
      · have hw' : wf (b0.path ++ "/rescan") = false := by
          revert hw; cases wf (b0.path ++ "/rescan") <;> simp
        have hfc : ((b0 :: bs.filter fun x => decide (x.driver = DRIVER)).find?
            (fun x => wf (x.path ++ "/rescan"))) =
            ((bs.filter fun x => decide (x.driver = DRIVER)).find?
              (fun x => wf (x.path ++ "/rescan"))) := by
          simp [List.find?_cons, hw']
        rw [hfc] at h
        obtain ⟨hflag, htgt⟩ := ih h
        refine ⟨by simp [specRescan, hd, hw, hflag], ?_⟩
        have hred : (specRescan wf (b0 :: bs)).1 =
            Eff.writeAttr (b0.path ++ "/rescan") "1" false :: (specRescan wf bs).1 := by
          simp [specRescan, hd, hw]
        rw [hred, writeTargets_write, htgt, List.filter_cons, if_pos (by simpa using hd),
          List.map_cons]
    · rw [List.filter_cons, if_neg (by simpa using hd)] at h
      obtain ⟨hflag, htgt⟩ := ih h
      refine ⟨by simp [specRescan, hd, hflag], ?_⟩
      rw [List.filter_cons, if_neg (by simpa using hd)]
      simpa [specRescan, hd] using htgt

/-- C9 (amended): over driver-block-structured systool output, rescan
behaves exactly as the spec-side `specRescan`: the rescan write is attempted
at each matching driver block's path in scan order, a failed attempt does
not stop the scan, and the scan stops at the first successful write (first
conjunct).  When some matching block's write succeeds, the operation reports
success and its final effect is the successful write on the first matching
block whose write succeeds — not necessarily the first matching block
(second conjunct).  When no matching block's write succeeds, the operation
reports the not-found terminal failure and every matching block's path has
received a write attempt (third conjunct).  On arbitrary line sequences, at
most one successful write is performed, every effect before the last is a
failed attempt, the success flag equals "some attempt succeeded", and the
scan performs only write effects (fourth conjunct). -/
theorem c9_rescan_amended :
    (∀ (wf : String → Bool) (bs : List DrvBlock),
        rescan wf (renderDrvBlocks bs) = specRescan wf bs) ∧
    (∀ (wf : String → Bool) (bs : List DrvBlock) (b : DrvBlock),
        (bs.filter fun x => decide (x.driver = DRIVER)).find?
            (fun x => wf (x.path ++ "/rescan")) = some b →
        (rescan wf (renderDrvBlocks bs)).2 = true ∧
        (rescan wf (renderDrvBlocks bs)).1.getLast? =
          some (Eff.writeAttr (b.path ++ "/rescan") "1" true)) ∧
    (∀ (wf : String → Bool) (bs : List DrvBlock),
        (bs.filter fun x => decide (x.driver = DRIVER)).find?
            (fun x => wf (x.path ++ "/rescan")) = none →
        (rescan wf (renderDrvBlocks bs)).2 = false ∧
        writeTargets (rescan wf (renderDrvBlocks bs)).1 =
          (bs.filter fun x => decide (x.driver = DRIVER)).map
            (fun x => x.path ++ "/rescan")) ∧
    (∀ (wf : String → Bool) (out : List SLine),
        ((rescan wf out).1.filter Eff.isOk).length ≤ 1 ∧
        (rescan wf out).2 = (rescan wf out).1.any Eff.isOk ∧
        ((rescan wf out).1.dropLast.all fun e => !Eff.isOk e) = true ∧
        ((rescan wf out).1.all Eff.isWrite) = true) := by
  refine ⟨?_, ?_, ?_, ?_⟩
  · intro wf bs
    exact rescanGo_renderDrvBlocks wf bs "" ""
  · intro wf bs b h
    rw [show rescan wf (renderDrvBlocks bs) = specRescan wf bs from
      rescanGo_renderDrvBlocks wf bs "" ""]
    exact specRescan_found wf bs b h
  · intro wf bs h
    rw [show rescan wf (renderDrvBlocks bs) = specRescan wf bs from
      rescanGo_renderDrvBlocks wf bs "" ""]
    exact specRescan_none wf bs h
  · intro wf out
    exact rescanGo_invariants wf out "" ""

def drvBlocksC9 : List DrvBlock :=
  [{ driver := "hvcs", path := "/sys/bus/vio/drivers/hvcs_A" },
   { driver := "hvcs", path := "/sys/bus/vio/drivers/hvcs_B" }]

/-- Witness for C9 (amended) at a concrete input: two matching driver
blocks, the write to the first block's directory failing — the scan reports
success and its final effect is the successful write on the second matching
block, the first whose write succeeds. -/
theorem c9_amended_witness :
    (rescan wfC9 (renderDrvBlocks drvBlocksC9)).2 = true ∧
    (rescan wfC9 (renderDrvBlocks drvBlocksC9)).1.getLast? =
      some (Eff.writeAttr ("/sys/bus/vio/drivers/hvcs_B" ++ "/rescan") "1" true) :=
  c9_rescan_amended.2.1 wfC9 drvBlocksC9
    { driver := "hvcs", path := "/sys/bus/vio/drivers/hvcs_B" } (by decide)

/-! ### Device-node name handling -/

def endsWithL (l suf : List Char) : Bool := decide (l.drop (l.length - suf.length) = suf)

/-- Semantics of `re.search(GLOBAL_NODE_NAME + "([0-9]+)$", s)` shared by
`getindex` (hvcsadmin.py lines 482-484) and `getnodename` (lines 486-488):
the pattern matches iff the string ends with the node name followed by a
nonempty digit run, and since the node name ends in a non-digit the captured
digit group is exactly the maximal trailing digit run. -/
def nodeSplit (cs : List Char) : Option (List Char) :=
  let ds := (cs.reverse.takeWhile Char.isDigit).reverse
  let pre := cs.take (cs.length - ds.length)
  if ds.isEmpty then none
  else if endsWithL pre GLOBAL_NODE_NAME.data then some ds else none

def getindex (devnode : String) : String :=
  match nodeSplit devnode.data with
  | some ds => String.mk ds
  | none => "-1"

def getnodename (devnode : String) : String :=
  match nodeSplit devnode.data with
  | some _ => GLOBAL_NODE_NAME
  | none => ""

/-- Semantics of `re.match(r'(^0.+$)', s)` in `validindex` (hvcsadmin.py
lines 201-210): the string starts with '0' followed by one or more
characters, none of which is a newline (`.` does not match newlines), with
`$` also matching just before one trailing newline. -/
def matchLeadingZero (cs : List Char) : Bool :=
  match cs with
  | c :: rest =>
      if c = '0' then
        let body := if rest.reverse.head? = some '\n' then rest.reverse.tail.reverse else rest
        !body.isEmpty && body.all (fun ch => decide (ch ≠ '\n'))
      else false
  | [] => false

/-- `validindex` returns -1 (invalid) when the leading-zero pattern matches,
0 (valid) otherwise. -/
def validindex (dev_index : String) : Int :=
  if matchLeadingZero dev_index.data then -1 else 0

/-! ### displaybypath (status line rendering) -/

def isHexC (c : Char) : Bool :=
  c.isDigit || ('a' ≤ c && c ≤ 'f') || ('A' ≤ c && c ≤ 'F')

def vtyCandidate (c : Char) (acc rest : List Char) : Bool :=
  decide (c = '3') && !acc.isEmpty &&
    (match rest.head? with
     | some r => decide (r ≠ '\n')
     | none => false)

/-- Semantics of `re.search(r'.+(3[0-9a-fA-F]+)$', path)` in `displaybypath`
(hvcsadmin.py line 418), scanning the reversed path: the greedy `.+` pushes
the group start as far right as possible, so the captured group starts at
the rightmost '3' that is followed only by hex digits up to the end of the
string, has at least one such digit after it, and has a preceding
non-newline character for `.+` to consume. -/
def vtyRevGo : List Char → List Char → Option (List Char)
  | [], _ => none
  | c :: rest, acc =>
      if vtyCandidate c acc rest then some (c :: acc)
      else if isHexC c then vtyRevGo rest (c :: acc)
      else none

def vtyServerOf (path : String) : String :=
  match vtyRevGo path.data.reverse [] with
  | some g => String.mk g
  | none => ""

/-- Semantics of `re.search(r'(\w+\.\w+\.\w+)-V(\d+)-C(\d+)$', s)` in
`displaybypath` (hvcsadmin.py line 406): the leftmost start position from
which the location-code pattern matches through to the end of the string. -/
def clcSearchGo : List Char → Option (String × String × String)
  | [] => none
  | c :: rest =>
      match parseClcList (c :: rest) with
      | some r => some r
      | none => clcSearchGo rest

def clcSearch (s : String) : String × String × String :=
  match clcSearchGo s.data with
  | some r => r
  | none => ("", "", "")

/-- Environment for the query paths: existence and contents of
pseudo-filesystem files (`readAttr` returns the `.strip()`-ed text). -/
structure QNEnv where
  devExists : String → Bool
  sysLines : List SLine
  attrExists : String → Bool
  readAttr : String → String

inductive DispRes
  | emptyPath
  | missingAttr (p : String)
  | line (s : String)
deriving DecidableEq

/-- `displaybypath` (hvcsadmin.py lines 377-422): empty path is reported and
returned (-1); a missing `current_vty`, `index` or `vterm_state` attribute
is a hard `sys.exit(1)`; otherwise the three attributes are read, the
location code and the vty-server id are extracted (empty strings on a failed
match) and one formatted status line is produced.  The machine group of the
location code is parsed but not printed, exactly as in the script. -/
def displaybypath (env : QNEnv) (path : String) : DispRes :=
  if path = "" then .emptyPath
  else if !env.attrExists (path ++ "/current_vty") then .missingAttr (path ++ "/current_vty")
  else if !env.attrExists (path ++ "/index") then .missingAttr (path ++ "/index")
  else if !env.attrExists (path ++ "/vterm_state") then .missingAttr (path ++ "/vterm_state")
  else
    let current_vty := env.readAttr (path ++ "/current_vty")
    let partition := (clcSearch current_vty).2.1
    let slot := (clcSearch current_vty).2.2
    let vterm_state := env.readAttr (path ++ "/vterm_state")
    let device_index := env.readAttr (path ++ "/index")
    let vty_server := vtyServerOf path
    .line ("vty-server@" ++ vty_server ++ " partition:" ++ partition ++ " slot:" ++ slot ++
           " /dev/" ++ DRIVER ++ device_index ++ " vterm-state:" ++ vterm_state)

/-! ### closedevice -/

inductive CloseResult
  | invalidName
  | invalidIndex
  | noDevEntry
  | notMapped
  | noVtermAttr
  | alreadyClosed
  | disconnectFailed
  | closed
deriving DecidableEq

/-- Process exit status produced by each `closedevice` outcome: the script
calls `sys.exit(1)` on every failure, `sys.exit(0)` on the already-closed
short circuit and returns normally (status 0) after a verified close. -/
def exitCode : CloseResult → Nat
  | .alreadyClosed => 0
  | .closed => 0
  | _ => 1

/-- Environment for one `closedevice` run: device-node existence, systool
output, vterm_state attribute existence, the first (pre-write) and second
(post-write) reads of vterm_state (`.strip()`-ed), and whether the write is
accepted by the filesystem layer (the script swallows a write exception, so
this flag only appears in the recorded effect). -/
structure CDEnv where
  devExists : String → Bool
  sysLines : List SLine
  attrExists : String → Bool
  readVterm : String
  writeOk : Bool
  readVtermAfter : String

structure CDOut where
  result : CloseResult
  effs : List Eff
  errs : List String
deriving DecidableEq

/-- `closedevice` (hvcsadmin.py lines 490-550): extract node name and index,
validate the name, validate the index, check the `/dev` entry, resolve the
sysfs path by index, check the vterm_state attribute, short-circuit if the
state already reads "0" (`re.fullmatch(r"0", v)` holds iff `v = "0"`),
otherwise write "0", re-read, and fail hard unless the re-read is "0".
Effects record the pseudo-filesystem interactions in program order; `errs`
records the `errorprint` output (always emitted; `statusprint` and
`verboseprint` output is gated by the verbosity level and not modelled). -/
def closedevice (parameter : String) (env : CDEnv) : CDOut :=
  let node_name := getnodename parameter
  let node_index := getindex parameter
  if node_name ≠ GLOBAL_NODE_NAME then
    { result := .invalidName, effs := [],
      errs := [APP_NAME ++ ": " ++ parameter ++ " is an invalid device node name.\n"] }
  else if validindex node_index ≠ 0 then
    { result := .invalidIndex, effs := [],
      errs := [APP_NAME ++ ": \"" ++ node_index ++ "\" is an invalid device node number.\n"] }
  else
    let dev := "/dev/" ++ node_name ++ node_index
    if !env.devExists dev then
      { result := .noDevEntry, effs := [Eff.checkDev dev],
        errs := [APP_NAME ++ ": " ++ dev ++ " not found in /dev.\n"] }
    else
      let device_path := get_device_path_by_index node_index env.sysLines
      if device_path = "" then
        { result := .notMapped, effs := [Eff.checkDev dev, Eff.scan], errs := [] }
      else
        let vstate := device_path ++ "/vterm_state"
        if !env.attrExists vstate then
          { result := .noVtermAttr,
            effs := [Eff.checkDev dev, Eff.scan, Eff.checkAttr vstate],
            errs := [APP_NAME ++ ": vterm_state attribute does not exist.\n"] }
        else if env.readVterm = "0" then
          { result := .alreadyClosed,
            effs := [Eff.checkDev dev, Eff.scan, Eff.checkAttr vstate, Eff.readAttr vstate],
            errs := [] }
        else if env.readVtermAfter ≠ "0" then
          { result := .disconnectFailed,
            effs := [Eff.checkDev dev, Eff.scan, Eff.checkAttr vstate, Eff.readAttr vstate,
                     Eff.writeAttr vstate "0" env.writeOk, Eff.readAttr vstate],
            errs := [APP_NAME ++ ": vty-server adapter " ++ device_path ++
                       " disconnection failed.\n",
                     APP_NAME ++ ": please check dmesg for further information.\n"] }
        else
          { result := .closed,
            effs := [Eff.checkDev dev, Eff.scan, Eff.checkAttr vstate, Eff.readAttr vstate,
                     Eff.writeAttr vstate "0" env.writeOk, Eff.readAttr vstate],
            errs := [] }

/-! ### querynode and status -/

inductive QNResult
  | invalidName
  | invalidIndex
  | noDevEntry
  | notMapped
  | display (r : DispRes)
deriving DecidableEq

/-- `querynode` (hvcsadmin.py lines 426-447): same front end as
`closedevice` (name check, index validation, `/dev` entry check, resolution
by index); an unmapped index returns silently, otherwise the resolved path
is displayed.  The effects of `displaybypath` are folded into its result. -/
def querynode (dev_node : String) (env : QNEnv) : QNResult × List Eff :=
  let dev_index := getindex dev_node
  let dev_name := getnodename dev_node
  if dev_name ≠ GLOBAL_NODE_NAME then (.invalidName, [])
  else if validindex dev_index ≠ 0 then (.invalidIndex, [])
  else
    let dev := "/dev/" ++ dev_name ++ dev_index
    if !env.devExists dev then (.noDevEntry, [Eff.checkDev dev])
    else
      let path := get_device_path_by_index dev_index env.sysLines
      if path = "" then (.notMapped, [Eff.checkDev dev, Eff.scan])
      else (.display (displaybypath env path), [Eff.checkDev dev, Eff.scan])

/-- Semantics of `re.search(GLOBAL_NODE_NAME + r'(\d)$', entry)` in `status`
(hvcsadmin.py line 471): the entry ends with the node name followed by
exactly one digit; the captured group is that single digit. -/
def statusMatch (entry : String) : Option String :=
  match entry.data.reverse with
  | d :: front =>
      if d.isDigit && endsWithL front.reverse GLOBAL_NODE_NAME.data then
        some (String.mk [d])
      else none
  | [] => none

/-- Lexicographic string order by code point, the order `sorted` uses. -/
def strLeGo : List Char → List Char → Bool
  | [], _ => true
  | _ :: _, [] => false
  | a :: as, b :: bs => if a = b then strLeGo as bs else decide (a.val < b.val)

def strLe (s t : String) : Bool := strLeGo s.data t.data

def insertStr (s : String) : List String → List String
  | [] => [s]
  | t :: ts => if strLe s t then s :: t :: ts else t :: insertStr s ts

/-- `sorted(os.listdir("/dev"))`: insertion sort by the string order. -/
def sortStrings : List String → List String
  | [] => []
  | s :: ss => insertStr s (sortStrings ss)

structure StOut where
  attempts : List String
  shown : List String
  aborted : Bool
deriving DecidableEq

/-- Loop body of `status` (hvcsadmin.py lines 459-480) over the sorted
entries: an entry matching the node name followed by a single digit is
resolved by index; unresolved entries are skipped; a resolved entry is
displayed (a missing attribute inside `displaybypath` is `sys.exit(1)`,
which aborts the remaining entries — the `emptyPath` case cannot occur here
because only nonempty paths are displayed). -/
def statusGo (env : QNEnv) : List String → StOut
  | [] => ⟨[], [], false⟩
  | e :: rest =>
      match statusMatch e with
      | none => statusGo env rest
      | some i =>
          let path := get_device_path_by_index i env.sysLines
          if path = "" then
            let o := statusGo env rest
            ⟨i :: o.attempts, o.shown, o.aborted⟩
          else
            match displaybypath env path with
            | .line s =>
                let o := statusGo env rest
                ⟨i :: o.attempts, s :: o.shown, o.aborted⟩
            | _ => ⟨[i], [], true⟩

def status (entries : List String) (env : QNEnv) : StOut :=
  statusGo env (sortStrings entries)

lemma all_ne_newline_of_digits (l : List Char) (h : l.all Char.isDigit = true) :
    l.all (fun ch => decide (ch ≠ '\n')) = true := by
  rw [List.all_eq_true] at h ⊢
  intro x hx
  have hd := h x hx
  simp only [decide_eq_true_eq]
  intro hxe
  subst hxe
  exact absurd hd (by decide)

lemma matchLeadingZero_digits (cs : List Char) (h : cs.all Char.isDigit = true) :
    matchLeadingZero cs = (decide (cs.head? = some '0') && decide (2 ≤ cs.length)) := by
  cases cs with
  | nil => rfl
  | cons c rest =>
    have hall : rest.all Char.isDigit = true := (List.all_cons .. ▸ h |> Bool.and_elim_right)
    simp only [matchLeadingZero]
    by_cases hc : c = '0'
    · subst hc
      rw [if_pos rfl]
      cases hrev : rest.reverse with
      | nil =>
        have hre : rest = [] := by
          have := congrArg List.reverse hrev
          simpa using this
        subst hre
        simp
      | cons r front =>
        have hrmem : r ∈ rest := by
          have : r ∈ rest.reverse := by rw [hrev]; exact List.mem_cons_self r front
          simpa using this
        have hrd : Char.isDigit r = true := (List.all_eq_true.mp hall) r hrmem
        have hrne : ¬ (r = '\n') := by
          intro hx; subst hx; exact absurd hrd (by decide)
        have hrestne : rest ≠ [] := by
          intro hx; rw [hx] at hrev; cases hrev
        have hsome : ¬ ((some r : Option Char) = some '\n') := by
          simp only [Option.some.injEq]
          exact hrne
        rw [List.head?_cons, if_neg hsome]
        have hlhs : (!rest.isEmpty && rest.all fun ch => decide (ch ≠ '\n')) = true := by
          rw [all_ne_newline_of_digits rest hall]
          cases rest with
          | nil => exact absurd rfl hrestne
          | cons x xs => rfl
        rw [hlhs]
        have h1 : ('0' :: rest).head? = some '0' := rfl
        have h2 : 2 ≤ ('0' :: rest).length := by
          cases rest with
          | nil => exact absurd rfl hrestne
          | cons x xs => simp only [List.length_cons]; omega
        rw [decide_eq_true h1, decide_eq_true h2]
        rfl
    · rw [if_neg hc]
      have h1 : ¬ ((c :: rest).head? = some '0') := by
        simp only [List.head?_cons, Option.some.injEq]
        exact hc
      rw [decide_eq_false h1, Bool.false_and]

/-- C5: index validation accepts exactly the digit strings that do not start
with '0' followed by further characters — "0" is accepted, any index
starting with '0' followed by one or more further digits is rejected (first
conjunct) — and rejection happens before any resolution is attempted: with a
failing index, `closedevice` and `querynode` stop with an empty effect trace
— no `/dev` lookup, no systool scan, no pseudo-filesystem access (second
conjunct). -/
theorem c5_validindex :
    (∀ s : String, s.data.all Char.isDigit = true →
        (validindex s = 0 ↔ ¬ (s.data.head? = some '0' ∧ 2 ≤ s.data.length))) ∧
    (∀ (param : String) (env : CDEnv) (qenv : QNEnv),
        getnodename param = GLOBAL_NODE_NAME →
        validindex (getindex param) ≠ 0 →
        closedevice param env =
          { result := CloseResult.invalidIndex, effs := [],
            errs := [APP_NAME ++ ": \"" ++ getindex param ++
                       "\" is an invalid device node number.\n"] } ∧
        querynode param qenv = (QNResult.invalidIndex, [])) := by
  constructor
  · intro s hdig
    rw [validindex, matchLeadingZero_digits s.data hdig]
    by_cases h1 : s.data.head? = some '0'
    · by_cases h2 : 2 ≤ s.data.length
      · simp [h1, h2]
      · simp [h1, h2]
    · simp [h1]
  · intro param env qenv hname hbad
    constructor
    · simp [closedevice, hname, hbad]
    · simp [querynode, hname, hbad]

def envC5 : CDEnv :=
  { devExists := fun _ => true,
    sysLines := [SLine.driver "hvcs", SLine.devicePath "/sys/devices/vio/30000002",
                 SLine.indexAttr "02"],
    attrExists := fun _ => true, readVterm := "1", writeOk := true, readVtermAfter := "0" }

def qenvC5 : QNEnv :=
  { devExists := fun _ => true,
    sysLines := [SLine.driver "hvcs", SLine.devicePath "/sys/devices/vio/30000002",
                 SLine.indexAttr "02"],
    attrExists := fun _ => true, readAttr := fun _ => "" }

/-- Witness for C5 at concrete inputs: "0" is accepted, and the leading-zero
index "02" is rejected by `closedevice` before any effect is performed, even
though a block with index attribute "02" is present in the scan data. -/
theorem c5_witness :
    validindex "0" = 0 ∧
    closedevice "/dev/hvcs02" envC5 =
      { result := CloseResult.invalidIndex, effs := [],
        errs := [APP_NAME ++ ": \"02\" is an invalid device node number.\n"] } ∧
    querynode "/dev/hvcs02" qenvC5 = (QNResult.invalidIndex, []) := by
  refine ⟨(c5_validindex.1 "0" (by decide)).mpr (by decide), ?_, ?_⟩
  · have h := (c5_validindex.2 "/dev/hvcs02" envC5 qenvC5 (by decide) (by decide)).1
    rw [h]
    decide
  · exact (c5_validindex.2 "/dev/hvcs02" envC5 qenvC5 (by decide) (by decide)).2

/-- C2: in `closedevice`, after writing "0" to the resolved device's
vterm_state file the attribute is re-read; whenever the re-read value is not
"0", the operation reports a disconnection failure with a hint to consult
dmesg and terminates with exit status 1, its effect trace ending at the
verification re-read with no further action (first conjunct); and success
(`closed`) requires the post-write verification to pass (second conjunct). -/
theorem c2_close_write_verification (param : String) (env : CDEnv)
    (hname : getnodename param = GLOBAL_NODE_NAME)
    (hidx : validindex (getindex param) = 0)
    (hdev : env.devExists ("/dev/" ++ GLOBAL_NODE_NAME ++ getindex param) = true)
    (hmap : get_device_path_by_index (getindex param) env.sysLines ≠ "")
    (hattr : env.attrExists
        (get_device_path_by_index (getindex param) env.sysLines ++ "/vterm_state") = true)
    (hv1 : env.readVterm ≠ "0") :
    (env.readVtermAfter ≠ "0" →
        (closedevice param env).result = CloseResult.disconnectFailed ∧
        exitCode (closedevice param env).result = 1 ∧
        (closedevice param env).errs =
          [APP_NAME ++ ": vty-server adapter " ++
             get_device_path_by_index (getindex param) env.sysLines ++
             " disconnection failed.\n",
           APP_NAME ++ ": please check dmesg for further information.\n"] ∧
        (closedevice param env).effs =
          [Eff.checkDev ("/dev/" ++ GLOBAL_NODE_NAME ++ getindex param), Eff.scan,
           Eff.checkAttr (get_device_path_by_index (getindex param) env.sysLines ++
             "/vterm_state"),
           Eff.readAttr (get_device_path_by_index (getindex param) env.sysLines ++
             "/vterm_state"),
           Eff.writeAttr (get_device_path_by_index (getindex param) env.sysLines ++
             "/vterm_state") "0" env.writeOk,
           Eff.readAttr (get_device_path_by_index (getindex param) env.sysLines ++
             "/vterm_state")]) ∧
    ((closedevice param env).result = CloseResult.closed → env.readVtermAfter = "0") := by
  constructor
  · intro hv2
    simp [closedevice, hname, hidx, hdev, hmap, hattr, hv1, hv2, exitCode]
  · intro hres
    by_cases hv2 : env.readVtermAfter = "0"
    · exact hv2
    · exfalso
      have : (closedevice param env).result = CloseResult.disconnectFailed := by
        simp [closedevice, hname, hidx, hdev, hmap, hattr, hv1, hv2]
      rw [hres] at this
      cases this

def envC2 : CDEnv :=
  { devExists := fun _ => true,
    sysLines := [SLine.driver "hvcs", SLine.devicePath "/sys/devices/vio/30000002",
                 SLine.indexAttr "2"],
    attrExists := fun _ => true, readVterm := "1", writeOk := true, readVtermAfter := "1" }

/-- Witness for C2: a device whose vterm_state still reads "1" after the
write is reported as a failed disconnection with exit status 1. -/
theorem c2_witness :
    (closedevice "/dev/hvcs2" envC2).result = CloseResult.disconnectFailed ∧
    exitCode (closedevice "/dev/hvcs2" envC2).result = 1 := by
  have h := (c2_close_write_verification "/dev/hvcs2" envC2 (by decide) (by decide)
    (by decide) (by decide) (by decide) (by decide)).1 (by decide)
  exact ⟨h.1, h.2.1⟩

/-- C3: a device whose vterm_state attribute already reads "0" makes
`closedevice` stop as a successful no-op: exit status 0 and an effect trace
that contains no write to the pseudo-filesystem. -/
theorem c3_close_already_closed (param : String) (env : CDEnv)
    (hname : getnodename param = GLOBAL_NODE_NAME)
    (hidx : validindex (getindex param) = 0)
    (hdev : env.devExists ("/dev/" ++ GLOBAL_NODE_NAME ++ getindex param) = true)
    (hmap : get_device_path_by_index (getindex param) env.sysLines ≠ "")
    (hattr : env.attrExists
        (get_device_path_by_index (getindex param) env.sysLines ++ "/vterm_state") = true)
    (hv0 : env.readVterm = "0") :
    (closedevice param env).result = CloseResult.alreadyClosed ∧
    exitCode (closedevice param env).result = 0 ∧
    (closedevice param env).effs =
      [Eff.checkDev ("/dev/" ++ GLOBAL_NODE_NAME ++ getindex param), Eff.scan,
       Eff.checkAttr (get_device_path_by_index (getindex param) env.sysLines ++
         "/vterm_state"),
       Eff.readAttr (get_device_path_by_index (getindex param) env.sysLines ++
         "/vterm_state")] ∧
    ((closedevice param env).effs.all fun e => !Eff.isWrite e) = true := by
  refine ⟨?_, ?_, ?_, ?_⟩ <;>
    simp [closedevice, hname, hidx, hdev, hmap, hattr, hv0, exitCode, Eff.isWrite]

def envC3 : CDEnv :=
  { devExists := fun _ => true,
    sysLines := [SLine.driver "hvcs", SLine.devicePath "/sys/devices/vio/30000002",
                 SLine.indexAttr "2"],
    attrExists := fun _ => true, readVterm := "0", writeOk := true, readVtermAfter := "0" }

/-- Witness for C3: a concrete already-disconnected device is a successful
no-op with no write effect. -/
theorem c3_witness :
    (closedevice "/dev/hvcs2" envC3).result = CloseResult.alreadyClosed ∧
    exitCode (closedevice "/dev/hvcs2" envC3).result = 0 := by
  have h := c3_close_already_closed "/dev/hvcs2" envC3 (by decide) (by decide)
    (by decide) (by decide) (by decide) (by decide)
  exact ⟨h.1, h.2.1⟩

lemma displaybypath_line (env : QNEnv) (path : String) (hne : path ≠ "")
    (hattr : ∀ p, env.attrExists p = true) :
    displaybypath env path =
      DispRes.line ("vty-server@" ++ vtyServerOf path ++ " partition:" ++
        (clcSearch (env.readAttr (path ++ "/current_vty"))).2.1 ++ " slot:" ++
        (clcSearch (env.readAttr (path ++ "/current_vty"))).2.2 ++
        " /dev/" ++ DRIVER ++ env.readAttr (path ++ "/index") ++ " vterm-state:" ++
        env.readAttr (path ++ "/vterm_state")) := by
  simp [displaybypath, hne, hattr]

lemma statusGo_chr (env : QNEnv) (hattr : ∀ p, env.attrExists p = true) :
    ∀ (es : List String),
      (statusGo env es).aborted = false ∧
      (statusGo env es).attempts = es.filterMap statusMatch ∧
      (statusGo env es).shown = (es.filterMap statusMatch).filterMap
        (fun i =>
          if get_device_path_by_index i env.sysLines = "" then none
          else
            match displaybypath env (get_device_path_by_index i env.sysLines) with
            | DispRes.line s => some s
            | _ => none) := by
  intro es
  induction es with
  | nil => exact ⟨rfl, rfl, rfl⟩
  | cons e rest ih =>
    obtain ⟨ha, hb, hc⟩ := ih
    cases hm : statusMatch e with
    | none =>
      simp only [statusGo, hm, List.filterMap_cons]
      exact ⟨ha, hb, hc⟩
    | some i =>
      by_cases hp : get_device_path_by_index i env.sysLines = ""
      · simp [statusGo, hm, hp, ha, hb, hc, List.filterMap_cons]
      · have hd := displaybypath_line env (get_device_path_by_index i env.sysLines) hp hattr
        simp [statusGo, hm, hp, hd, ha, hb, hc, List.filterMap_cons]

/-- C8 (amended): full-system enumeration sorts the `/dev` entries by name
and matches those ending in the configured node prefix followed by exactly
one digit (the scan regex captures a single digit, so multi-digit entries
such as "hvcs10" are not matched and no resolution is attempted for them —
last conjunct); each matched single-digit index is resolved independently
via the index scan, entries that do not resolve are skipped without failing,
and each resolving entry produces one displayed status line. -/
theorem c8_status_amended (entries : List String) (env : QNEnv)
    (hattr : ∀ p, env.attrExists p = true) :
    (status entries env).aborted = false ∧
    (status entries env).attempts = (sortStrings entries).filterMap statusMatch ∧
    (status entries env).shown =
      ((sortStrings entries).filterMap statusMatch).filterMap
        (fun i =>
          if get_device_path_by_index i env.sysLines = "" then none
          else
            match displaybypath env (get_device_path_by_index i env.sysLines) with
            | DispRes.line s => some s
            | _ => none) ∧
    statusMatch "hvcs10" = none := by
  refine ⟨(statusGo_chr env hattr (sortStrings entries)).1,
    (statusGo_chr env hattr (sortStrings entries)).2.1,
    (statusGo_chr env hattr (sortStrings entries)).2.2, by decide⟩

def qenvC8 : QNEnv :=
  { devExists := fun _ => true,
    sysLines := [SLine.driver "hvcs", SLine.devicePath "/sys/devices/vio/30000003",
                 SLine.indexAttr "10"],
    attrExists := fun _ => true, readAttr := fun _ => "0" }

/-- C8 counterexample: the claim says every `/dev` entry of the form
nodePrefix+digits — including multi-digit indices such as "hvcs10" — gets a
resolution attempt.  The entry "hvcs10" has that form (`getindex` extracts
"10") and the index "10" is resolvable in the scan data, yet `status` makes
no resolution attempt for it and displays nothing: its regex matches only a
single trailing digit. -/
theorem c8_counterexample :
    getindex "hvcs10" = "10" ∧
    get_device_path_by_index "10" qenvC8.sysLines = "/sys/devices/vio/30000003" ∧
    status ["hvcs10"] qenvC8 = ⟨[], [], false⟩ := by
  refine ⟨by decide, by decide, by decide⟩

/-- Witness for C8 (amended) at a concrete input: with every attribute file
present, `status` over entries "hvcs2", "junk" and "hvcs10" attempts exactly
the single-digit index "2". -/
theorem c8_witness :
    (status ["hvcs2", "junk", "hvcs10"] qenvC8).attempts =
      (sortStrings ["hvcs2", "junk", "hvcs10"]).filterMap statusMatch ∧
    (sortStrings ["hvcs2", "junk", "hvcs10"]).filterMap statusMatch = ["2"] := by
  refine ⟨(c8_status_amended ["hvcs2", "junk", "hvcs10"] qenvC8 (fun _ => rfl)).2.1, by decide⟩

lemma takeWhile_all_append {α : Type} (p : α → Bool) :
    ∀ (xs ys : List α), xs.all p = true →
      (xs ++ ys).takeWhile p = xs ++ ys.takeWhile p := by
  intro xs
  induction xs with
  | nil => intro ys _; rfl
  | cons x xs ih =>
    intro ys h
    have hx : p x = true := (List.all_cons .. ▸ h |> Bool.and_elim_left)
    have hxs : xs.all p = true := (List.all_cons .. ▸ h |> Bool.and_elim_right)
    simp only [List.cons_append, List.takeWhile_cons, hx, if_true, ih ys hxs]

lemma all_takeWhile {α : Type} (p : α → Bool) :
    ∀ (l : List α), (l.takeWhile p).all p = true := by
  intro l
  induction l with
  | nil => rfl
  | cons x xs ih =>
    by_cases hx : p x = true
    · simp [List.takeWhile_cons, hx, ih]
    · have hx' : p x = false := by revert hx; cases p x <;> simp
      simp [List.takeWhile_cons, hx']

lemma all_reverse' {α : Type} (p : α → Bool) (l : List α) : l.reverse.all p = l.all p := by
  induction l with
  | nil => rfl
  | cons x xs ih => simp [List.reverse_cons, List.all_append, ih, Bool.and_comm]

lemma take_len_append {α : Type} : ∀ (l₁ l₂ : List α), (l₁ ++ l₂).take l₁.length = l₁ := by
  intro l₁
  induction l₁ with
  | nil => intro l₂; rfl
  | cons x xs ih =>
    intro l₂
    simp only [List.cons_append, List.length_cons, List.take_succ_cons, ih]

lemma string_data_append (s t : String) : (s ++ t).data = s.data ++ t.data := by
  cases s; cases t; rfl

lemma nodeSplit_inv (cs ds : List Char) (h : nodeSplit cs = some ds) :
    ds ≠ [] ∧ ds.all Char.isDigit = true := by
  simp only [nodeSplit] at h
  by_cases he : ((cs.reverse.takeWhile Char.isDigit).reverse).isEmpty = true
  · rw [if_pos he] at h; cases h
  · rw [if_neg he] at h
    by_cases hw : endsWithL
        (cs.take (cs.length - ((cs.reverse.takeWhile Char.isDigit).reverse).length))
        GLOBAL_NODE_NAME.data = true
    · rw [if_pos hw] at h
      injection h with h'
      subst h'
      constructor
      · intro hx
        rw [hx] at he
        exact he rfl
      · rw [all_reverse']
        exact all_takeWhile Char.isDigit cs.reverse
    · rw [if_neg hw] at h; cases h

lemma nodeSplit_suffix (ds : List Char) (hne : ds ≠ []) (hdig : ds.all Char.isDigit = true) :
    nodeSplit ("/dev/hvcs".data ++ ds) = some ds := by
  have htrail : (("/dev/hvcs".data ++ ds).reverse.takeWhile Char.isDigit).reverse = ds := by
    rw [List.reverse_append]
    rw [takeWhile_all_append Char.isDigit ds.reverse _ (by rw [all_reverse']; exact hdig)]
    rw [show "/dev/hvcs".data.reverse.takeWhile Char.isDigit = [] from by decide]
    simp
  have hlen : ("/dev/hvcs".data ++ ds).length - ds.length = "/dev/hvcs".data.length := by
    rw [List.length_append]
    omega
  have hde : ds.isEmpty = false := by
    cases ds with
    | nil => exact absurd rfl hne
    | cons x xs => rfl
  have hw : endsWithL "/dev/hvcs".data GLOBAL_NODE_NAME.data = true := by decide
  simp only [nodeSplit, htrail, hlen, take_len_append, hde, hw, Bool.false_eq_true,
    if_false, if_true]

/-- C10: the device-node name check in `closedevice` and `querynode` is
suffix-based: for any identifier that ends in the configured node prefix
immediately followed by digits — e.g. "foohvcs2" — `getnodename` returns the
prefix itself, so the name check passes, only the extracted prefix and
trailing digits are used afterwards, and the identifier is handled exactly
like the canonical "/dev/<prefix><digits>" node: both operations produce
identical results in every environment. -/
theorem c10_suffix_name (p : String) (cenv : CDEnv) (qenv : QNEnv)
    (hname : getnodename p = GLOBAL_NODE_NAME) :
    closedevice p cenv = closedevice ("/dev/" ++ GLOBAL_NODE_NAME ++ getindex p) cenv ∧
    querynode p qenv = querynode ("/dev/" ++ GLOBAL_NODE_NAME ++ getindex p) qenv ∧
    getnodename ("/dev/" ++ GLOBAL_NODE_NAME ++ getindex p) = GLOBAL_NODE_NAME := by
  obtain ⟨ds, hsplit⟩ : ∃ ds, nodeSplit p.data = some ds := by
    cases hns : nodeSplit p.data with
    | none =>
      exfalso
      rw [getnodename, hns] at hname
      exact absurd hname (by decide)
    | some ds => exact ⟨ds, rfl⟩
  obtain ⟨hne, hdig⟩ := nodeSplit_inv p.data ds hsplit
  have hidx : getindex p = String.mk ds := by rw [getindex, hsplit]
  have hqdata : ("/dev/" ++ GLOBAL_NODE_NAME ++ getindex p).data = "/dev/hvcs".data ++ ds := by
    rw [hidx, string_data_append, string_data_append]
    rw [show ("/dev/".data ++ GLOBAL_NODE_NAME.data) = "/dev/hvcs".data from by decide]
  have hq : nodeSplit ("/dev/" ++ GLOBAL_NODE_NAME ++ getindex p).data = some ds := by
    rw [hqdata]
    exact nodeSplit_suffix ds hne hdig
  have hn_q : getnodename ("/dev/" ++ GLOBAL_NODE_NAME ++ getindex p) = GLOBAL_NODE_NAME := by
    rw [getnodename, hq]
  have hi_q : getindex ("/dev/" ++ GLOBAL_NODE_NAME ++ getindex p) = getindex p := by
    rw [getindex, hq, hidx]
  refine ⟨?_, ?_, hn_q⟩
  · simp [closedevice, hname, hn_q, hi_q]
  · simp [querynode, hname, hn_q, hi_q]

def envC10 : CDEnv :=
  { devExists := fun _ => true,
    sysLines := [SLine.driver "hvcs", SLine.devicePath "/sys/devices/vio/30000002",
                 SLine.indexAttr "2"],
    attrExists := fun _ => true, readVterm := "1", writeOk := true, readVtermAfter := "0" }

def qenvC10 : QNEnv :=
  { devExists := fun _ => true,
    sysLines := [SLine.driver "hvcs", SLine.devicePath "/sys/devices/vio/30000002",
                 SLine.indexAttr "2"],
    attrExists := fun _ => true, readAttr := fun _ => "0" }

/-- Witness for C10: the identifier "foohvcs2" — arbitrary leading
characters before the node prefix — is treated identically to the canonical
node "/dev/hvcs2". -/
theorem c10_witness :
    closedevice "foohvcs2" envC10 =
      closedevice ("/dev/" ++ GLOBAL_NODE_NAME ++ getindex "foohvcs2") envC10 ∧
    querynode "foohvcs2" qenvC10 =
      querynode ("/dev/" ++ GLOBAL_NODE_NAME ++ getindex "foohvcs2") qenvC10 :=
  ⟨(c10_suffix_name "foohvcs2" envC10 qenvC10 (by decide)).1,
   (c10_suffix_name "foohvcs2" envC10 qenvC10 (by decide)).2.1⟩

end Hvcsadmin
